import Mathlib

/-!
Shallow embedding of the OCR orchestration core of the envelope-reader
repository: the image preprocessing pipeline (`preprocessImage` in
imagePreprocessing.js) and the multi-engine OCR client
(`callOcrSpace`, `callTesseract`, `runOCR`, `getTesseractWorker` in
ocrClient.js).  Machine pixel arithmetic is modelled over `ℚ` with the
explicit rounding/clamping the JS runtime performs; network and worker
effects are modelled as explicit oracles, with traces of the requests,
sleeps and adapter calls the code performs.
-/

namespace Envelope

set_option maxRecDepth 100000

attribute [local semireducible] Rat.add Rat.mul Rat.sub Rat.inv Rat.ofScientific

/-- One RGBA pixel of a canvas ImageData buffer. -/
structure Pixel where
  r : ℕ
  g : ℕ
  b : ℕ
  a : ℕ
deriving DecidableEq

/-- JS `Math.round`, which is `floor (x + 1/2)`; this is Mathlib `round` on `ℚ`. -/
def jsRound (q : ℚ) : ℤ := round q

/-- Storing a value into a `Uint8ClampedArray` slot: clamp to [0,255] and
round to nearest, ties to even (the JS semantics for non-integer stores). -/
def u8Store (q : ℚ) : ℕ :=
  (if q - ⌊q⌋ < 1/2 then ⌊q⌋
   else if 1/2 < q - ⌊q⌋ then ⌊q⌋ + 1
   else if ⌊q⌋ % 2 = 0 then ⌊q⌋ else ⌊q⌋ + 1).toNat

/-- The common scale factor of the resize step:
`Math.min(maxWidth / width, maxHeight / height)`. -/
def resizeScale (w h maxW maxH : ℕ) : ℚ :=
  min ((maxW : ℚ) / w) ((maxH : ℚ) / h)

/-- Step 1 of `preprocessImage`: the resize computation; scale down only when
a side exceeds its bound, rounding each scaled side like `Math.round`. -/
def resizeDims (w h maxW maxH : ℕ) : ℕ × ℕ :=
  if maxW < w ∨ maxH < h then
    ((jsRound (w * resizeScale w h maxW maxH)).toNat,
     (jsRound (h * resizeScale w h maxW maxH)).toNat)
  else (w, h)

/-- Step 4 of `preprocessImage`: grayscale,
`gray = Math.round(0.299*R + 0.587*G + 0.114*B)`, written to R, G and B. -/
def grayscaleStage (d : List Pixel) : List Pixel :=
  d.map fun p =>
    let gray := (jsRound ((0.299 : ℚ) * p.r + 0.587 * p.g + 0.114 * p.b)).toNat
    ⟨gray, gray, gray, p.a⟩

/-- Step 5 of `preprocessImage`: contrast,
`clamp(pixel*factor + 128*(1-factor))` on R, G and B. -/
def contrastStage (factor : ℚ) (d : List Pixel) : List Pixel :=
  let intercept := 128 * (1 - factor)
  d.map fun p =>
    ⟨u8Store (min 255 (max 0 (p.r * factor + intercept))),
     u8Store (min 255 (max 0 (p.g * factor + intercept))),
     u8Store (min 255 (max 0 (p.b * factor + intercept))),
     p.a⟩

/-- The grayscale histogram the binarization step builds:
`histogram[data[i]]++` counts the R channel of every pixel. -/
def pixelHist (d : List Pixel) (v : ℕ) : ℕ :=
  (d.filter fun p => p.r == v).length

/-- Cumulative histogram weight `wB` after the loop has processed bins `0..k-1`. -/
def cumW (hist : ℕ → ℕ) (k : ℕ) : ℕ :=
  ∑ j ∈ Finset.range k, hist j

/-- Cumulative first moment `sumB` after the loop has processed bins `0..k-1`. -/
def cumS (hist : ℕ → ℕ) (k : ℕ) : ℚ :=
  ∑ j ∈ Finset.range k, (j : ℚ) * hist j

/-- State of the Otsu threshold-selection loop of the binarization step. -/
structure OtsuSt where
  wB : ℚ
  sumB : ℚ
  maxVar : ℚ
  threshold : ℕ

/-- The Otsu loop of the binarization step, one iteration per bin:
`wB += histogram[i]; if (wB === 0) continue; wF = N - wB; if (wF === 0) break;
sumB += i*histogram[i]; variance = wB*wF*(mB-mF)^2; if > max, record i`. -/
def otsuGo (hist : ℕ → ℕ) (n4 total : ℚ) : List ℕ → OtsuSt → OtsuSt
  | [], s => s
  | i :: rest, s =>
    let wB := s.wB + hist i
    if wB = 0 then otsuGo hist n4 total rest { s with wB := wB }
    else
      let wF := n4 - wB
      if wF = 0 then { s with wB := wB }
      else
        let sumB := s.sumB + (i : ℚ) * hist i
        let mB := sumB / wB
        let mF := (total - sumB) / wF
        let v := wB * wF * (mB - mF) * (mB - mF)
        if s.maxVar < v then otsuGo hist n4 total rest ⟨wB, sumB, v, i⟩
        else otsuGo hist n4 total rest ⟨wB, sumB, s.maxVar, s.threshold⟩

/-- The threshold the binarization step selects: run the Otsu loop over all
256 bins, starting from `maxVariance = 0`, `threshold = 128`. -/
def otsuThreshold (hist : ℕ → ℕ) (N : ℕ) : ℕ :=
  (otsuGo hist N (cumS hist 256) (List.range 256) ⟨0, 0, 0, 128⟩).threshold

/-- Step 6 of `preprocessImage`: binarization; pick the Otsu threshold over the
R-channel histogram, then map every pixel to pure black or white. -/
def binarizeStage (d : List Pixel) : List Pixel :=
  let threshold := otsuThreshold (pixelHist d) d.length
  d.map fun p =>
    let v := if threshold < p.r then 255 else 0
    ⟨v, v, v, p.a⟩

/-- The 3×3 sharpen kernel `[0,-1,0,-1,5,-1,0,-1,0]`, indexed row-major. -/
def kernelAt (i : ℕ) : ℤ :=
  ([0, -1, 0, -1, 5, -1, 0, -1, 0] : List ℤ).getD i 0

/-- Clamp a convolution result like `Math.min(255, Math.max(0, v))`. -/
def clamp255 (z : ℤ) : ℕ := (min 255 (max 0 z)).toNat

/-- Step 7 of `preprocessImage`: unsharp mask on interior pixels only, reading
from a frozen copy of the pre-sharpen data; borders are copied unchanged. -/
def sharpenStage (w h : ℕ) (d : List Pixel) : List Pixel :=
  (List.range d.length).map fun idx =>
    let p := d.getD idx ⟨0, 0, 0, 0⟩
    let y := idx / w
    let x := idx % w
    if 1 ≤ y ∧ y + 1 < h ∧ 1 ≤ x ∧ x + 1 < w then
      let conv : (Pixel → ℕ) → ℤ := fun ch =>
        ∑ ky ∈ Finset.range 3, ∑ kx ∈ Finset.range 3,
          (ch (d.getD ((y + ky - 1) * w + (x + kx - 1)) ⟨0, 0, 0, 0⟩) : ℤ) *
            kernelAt (ky * 3 + kx)
      ⟨clamp255 (conv Pixel.r), clamp255 (conv Pixel.g), clamp255 (conv Pixel.b), p.a⟩
    else p

/-- Options of `preprocessImage`, with the source defaults. -/
structure PreprocessOptions where
  maxWidth : ℕ := 2000
  maxHeight : ℕ := 2000
  enableGrayscale : Bool := true
  enableContrast : Bool := true
  contrastFactor : ℚ := 1.2
  enableBinarization : Bool := false
  enableSharpen : Bool := false

/-- Steps 4-7 of `preprocessImage` composed in source order over the pixel
buffer (grayscale, contrast, binarization, sharpen, each behind its flag). -/
def pipelineData (o : PreprocessOptions) (w h : ℕ) (d : List Pixel) : List Pixel :=
  let d1 := if o.enableGrayscale then grayscaleStage d else d
  let d2 := if o.enableContrast then contrastStage o.contrastFactor d1 else d1
  let d3 := if o.enableBinarization then binarizeStage d2 else d2
  if o.enableSharpen then sharpenStage w h d3 else d3

/-- An opaque byte blob (image payload). -/
structure Blob where
  bytes : List ℕ
deriving DecidableEq

/-- An image source handed to the client: a (data-)URL string or a Blob. -/
inductive ImgSrc where
  | url (u : String)
  | blob (b : Blob)
deriving DecidableEq

/-- The options object of `callOcrSpace` (with the source defaults), which in
`runOCR` doubles as the options object handed to `callTesseract` (whence the
page-segmentation fields). -/
structure OcrOpts where
  apiKey : String := ""
  language : String := "eng"
  isOverlayRequired : Bool := true
  detectOrientation : Bool := true
  scale : Bool := true
  OCREngine : ℕ := 2
  timeout : ℕ := 15000
  pagesegMode : String := "6"
  fallbackPagesegMode : String := "11"
deriving DecidableEq

/-- One entry of the OCR.space response `ParsedResults` array. -/
structure ParsedResult where
  ParsedText : String
  HasOverlay : Bool
deriving DecidableEq

/-- The decoded OCR.space JSON body. -/
structure ApiData where
  IsErroredOnProcessing : Bool
  ErrorMessage : Option String
  ParsedResults : List ParsedResult
deriving DecidableEq

/-- Outcome of one `fetch` of the OCR.space endpoint, as the code observes it. -/
inductive NetResponse where
  | timeout
  | httpError (status : ℕ) (body : String)
  | netFail (msg : String)
  | success (data : ApiData)
deriving DecidableEq

/-- The classified errors `callOcrSpace` can throw. -/
inductive OcrFailure where
  | timeout
  | httpError (status : ℕ) (body : String)
  | apiError (msg : String)
  | noText
  | network (msg : String)
deriving DecidableEq

/-- The `message` string of each thrown error, as built by the source. -/
def msgOf : OcrFailure → String
  | .timeout => "OCR request timeout"
  | .httpError status body => "HTTP " ++ toString status ++ ": " ++ body
  | .apiError m => m
  | .noText => "No text detected"
  | .network m => m

/-- JS `String.prototype.trim`, modelled structurally over the character list
(strip leading and trailing whitespace). -/
def jsTrim (s : String) : String :=
  ⟨((s.data.dropWhile Char.isWhitespace).reverse.dropWhile Char.isWhitespace).reverse⟩

/-- Substring search over character lists (JS `String.prototype.includes`). -/
def listContains (pat : List Char) : List Char → Bool
  | [] => pat.isPrefixOf []
  | c :: rest => pat.isPrefixOf (c :: rest) || listContains pat rest

/-- `error.message.includes('No text detected')` of the catch block. -/
def includesNoText (e : OcrFailure) : Bool :=
  listContains "No text detected".data (msgOf e).data

instance {ε α : Type} [DecidableEq ε] [DecidableEq α] : DecidableEq (Except ε α) :=
  fun x y =>
    match x, y with
    | .ok a, .ok b =>
      if h : a = b then .isTrue (by rw [h]) else .isFalse (fun hc => h (Except.ok.inj hc))
    | .error a, .error b =>
      if h : a = b then .isTrue (by rw [h]) else .isFalse (fun hc => h (Except.error.inj hc))
    | .ok _, .error _ => .isFalse (fun hc => Except.noConfusion hc)
    | .error _, .ok _ => .isFalse (fun hc => Except.noConfusion hc)

/-- The text + engine + confidence record an engine adapter returns. -/
structure EngineResult where
  text : String
  engine : String
  confidence : String
deriving DecidableEq

/-- Result of a `callOcrSpace` invocation, together with the full trace of
requests issued (the options of each attempt, in order) and of the backoff
sleeps performed before each retry. -/
structure OcrCallOut where
  result : Except OcrFailure EngineResult
  requests : List OcrOpts
  sleeps : List ℕ

/-- `const maxRetries = 2`. -/
def maxRetries : ℕ := 2

/-- `const backoffMs = [500, 1500]`. -/
def backoffMs : List ℕ := [500, 1500]

/-- The `altOptions` built on a blank-text retry:
`OCREngine: OCREngine === 2 ? 1 : 2, detectOrientation: !detectOrientation`. -/
def altParams (o : OcrOpts) : OcrOpts :=
  { o with OCREngine := if o.OCREngine = 2 then 1 else 2,
           detectOrientation := !o.detectOrientation }

/-- Cons the current attempt and its backoff sleep onto a recursive outcome. -/
def consAttempt (o : OcrOpts) (retryCount : ℕ) (rest : OcrCallOut) : OcrCallOut :=
  ⟨rest.result, o :: rest.requests, backoffMs.getD retryCount 0 :: rest.sleeps⟩

/-- `callOcrSpace`, structurally recursive on an explicit `fuel` argument.
The wrapper `callOcrSpace` supplies `fuel = maxRetries + 1`, and every
recursive call is guarded by `retryCount < maxRetries` exactly as in the
source, so with that wrapper the fuel never runs out and the `fuel = 0`
default case is unreachable.  The oracle `net` maps (blob, attempt index,
request options) to the observed network outcome. -/
def callOcrSpaceGo (net : Blob → ℕ → OcrOpts → NetResponse) (blob : Blob) :
    ℕ → OcrOpts → ℕ → OcrCallOut
  | 0, o, _ => ⟨.error (.network "fuel exhausted"), [o], []⟩
  | fuel + 1, o, retryCount =>
    let retriedSame := callOcrSpaceGo net blob fuel o (retryCount + 1)
    let handleErr : OcrFailure → OcrCallOut := fun e =>
      if retryCount < maxRetries ∧ includesNoText e = false then
        consAttempt o retryCount retriedSame
      else ⟨.error e, [o], []⟩
    match net blob retryCount o with
    | .timeout => ⟨.error .timeout, [o], []⟩
    | .httpError status body =>
      if status = 429 ∧ retryCount < maxRetries then
        consAttempt o retryCount retriedSame
      else handleErr (.httpError status body)
    | .netFail m => handleErr (.network m)
    | .success data =>
      if data.IsErroredOnProcessing then
        handleErr (.apiError (data.ErrorMessage.getD "Unknown OCR.space error"))
      else
        match data.ParsedResults with
        | [] =>
          if retryCount < maxRetries ∧ o.OCREngine = 2 then
            consAttempt o retryCount
              (callOcrSpaceGo net blob fuel { o with OCREngine := 1 } (retryCount + 1))
          else ⟨.error .noText, [o], []⟩
        | pr :: _ =>
          let parsedText := pr.ParsedText
          if jsTrim parsedText = "" ∨ jsTrim parsedText = "No text detected" then
            if retryCount < maxRetries then
              consAttempt o retryCount
                (callOcrSpaceGo net blob fuel (altParams o) (retryCount + 1))
            else ⟨.error .noText, [o], []⟩
          else
            ⟨.ok ⟨parsedText, "ocrspace", if pr.HasOverlay then "high" else "medium"⟩,
             [o], []⟩

/-- A top-level `callOcrSpace(blob, options)` call (`retryCount` defaults to 0). -/
def callOcrSpace (net : Blob → ℕ → OcrOpts → NetResponse) (blob : Blob)
    (o : OcrOpts) : OcrCallOut :=
  callOcrSpaceGo net blob (maxRetries + 1) o 0

/-- What one `worker.recognize` yields: `result.data.text` and
`result.data.confidence`. -/
structure TessData where
  text : String
  confidence : ℚ
deriving DecidableEq

/-- `confidence > 0 ? Math.round(confidence) + '%' : 'unknown'`. -/
def confStr (c : ℚ) : String :=
  if 0 < c then toString (jsRound c) ++ "%" else "unknown"

/-- `callTesseract`: recognize with the primary page-segmentation mode; if the
text is blank or confidence is below 30 and the fallback mode differs, re-run
once with the fallback mode and keep the longer trimmed non-empty text.  The
oracle `recW` maps the page-segmentation mode set on the shared worker to the
recognition outcome (`Except` models a thrown recognition error, which the
source rethrows).  The returned list records the modes recognition ran with. -/
def callTesseract (recW : String → Except String TessData) (o : OcrOpts) :
    Except String (EngineResult × List String) :=
  match recW o.pagesegMode with
  | .error e => .error e
  | .ok result =>
    let text := result.text
    let confidence := result.confidence
    if (jsTrim text = "" ∨ confidence < 30) ∧ o.pagesegMode ≠ o.fallbackPagesegMode then
      match recW o.fallbackPagesegMode with
      | .error e => .error e
      | .ok fallbackResult =>
        if fallbackResult.text ≠ "" ∧ (jsTrim text).length < (jsTrim fallbackResult.text).length then
          .ok (⟨fallbackResult.text, "tesseract", confStr fallbackResult.confidence⟩,
               [o.pagesegMode, o.fallbackPagesegMode])
        else
          .ok (⟨text, "tesseract", confStr confidence⟩,
               [o.pagesegMode, o.fallbackPagesegMode])
    else
      .ok (⟨text, "tesseract", confStr confidence⟩, [o.pagesegMode])

/-! ### Lazy worker creation under the JS event loop (`getTesseractWorker`)

One call runs synchronously up to each `await` and can interleave with the
other call only at those suspension points.  A task is a program counter:
0 = about to run the `if (!tesseractWorker)` check; 1 = suspended inside
`tesseractWorker = await Tesseract.createWorker('eng')` (the worker is being
created, the variable is still unset); 2 = suspended in
`await worker.setParameters(...)` after the assignment; 3 = returned.
`created` counts `Tesseract.createWorker` invocations; `pend` remembers the
id of the worker a suspended creation will deliver. -/

/-- State of one in-flight `getTesseractWorker()` call. -/
structure WTask where
  pc : ℕ := 0
  pend : ℕ := 0
deriving DecidableEq

/-- The shared module state plus two concurrent `getTesseractWorker()` calls. -/
structure WSys where
  worker : Option ℕ := none
  created : ℕ := 0
  tA : WTask := {}
  tB : WTask := {}
deriving DecidableEq

/-- Advance one task by one atomic segment (run to the next suspension). -/
def wStepTask (w : Option ℕ) (created : ℕ) (t : WTask) : Option ℕ × ℕ × WTask :=
  match t.pc with
  | 0 =>
    match w with
    | none => (w, created + 1, ⟨1, created + 1⟩)
    | some _ => (w, created, { t with pc := 3 })
  | 1 => (some t.pend, created, { t with pc := 2 })
  | 2 => (w, created, { t with pc := 3 })
  | _ => (w, created, t)

/-- Scheduler step: `false` advances call A, `true` advances call B. -/
def wStep (s : WSys) (pick : Bool) : WSys :=
  if pick then
    let (w, c, t) := wStepTask s.worker s.created s.tB
    { s with worker := w, created := c, tB := t }
  else
    let (w, c, t) := wStepTask s.worker s.created s.tA
    { s with worker := w, created := c, tA := t }

/-- Run a schedule (a list of which-task choices) from the cold-start state. -/
def wRun (sched : List Bool) : WSys :=
  sched.foldl wStep {}

/-! ### The orchestrator `runOCR` -/

/-- The environment pieces `runOCR` uses around the two adapters:
the module flag `VITE_OCR_V2_ENABLED`, the outcome of the preprocessing
`try` block (`none` models a throw caught at `catch` in step 1),
blob-to-data-URL conversion, and `fetch(src).blob()` re-encoding. -/
structure OrchInfra where
  v2Enabled : Bool
  ppOutcome : ImgSrc → PreprocessOptions → Option Blob
  blobToDataUrl : Blob → String
  fetchBlob : String → Blob

/-- The options object of `runOCR`, with the source defaults. -/
structure RunOpts where
  mode : String := "auto"
  apiKey : String := ""
  enablePreprocessing : Bool := true
  preprocessingOptions : PreprocessOptions := {}
  ocrSpaceOptions : OcrOpts := {}

/-- The `{ apiKey, ...ocrSpaceOptions }` object handed to `callOcrSpace`:
the spread wins whenever `ocrSpaceOptions` carries its own key. -/
def mergedOcrOpts (o : RunOpts) : OcrOpts :=
  { o.ocrSpaceOptions with
    apiKey := if o.ocrSpaceOptions.apiKey = "" then o.apiKey else o.ocrSpaceOptions.apiKey }

/-- `processedBlob` fallback when preprocessing is skipped or threw:
the source blob itself, or `await (await fetch(src)).blob()` for a URL. -/
def originalBlobOf (infra : OrchInfra) (src : ImgSrc) : Blob :=
  match src with
  | .blob b => b
  | .url u => infra.fetchBlob u

/-- Step 1 of `runOCR`: compute `(processedBlob, imageDataUrl)` and count how
many times `preprocessImage` ran.  On preprocessing success the data URL of
the processed blob is used; on a caught preprocessing error or when
preprocessing is disabled, the original source is used. -/
def preprocessPhase (infra : OrchInfra) (src : ImgSrc) (o : RunOpts) :
    Blob × ImgSrc × ℕ :=
  if o.enablePreprocessing ∧ infra.v2Enabled = true then
    match infra.ppOutcome src o.preprocessingOptions with
    | some b => (b, .url (infra.blobToDataUrl b), 1)
    | none => (originalBlobOf infra src, src, 1)
  else (originalBlobOf infra src, src, 0)

/-- The error `runOCR` can reject with: a propagated remote-adapter error, a
propagated local-adapter error, or the terminal
"No text detected after OCR processing" of step 3. -/
inductive RunErr where
  | remoteErr (e : OcrFailure)
  | tessErr (m : String)
  | noTextAfter
deriving DecidableEq

/-- Trace of one `runOCR` call: preprocessing passes, the blobs handed to
`callOcrSpace`, and the image sources handed to `callTesseract`, in order. -/
structure OrchLog where
  ppCalls : ℕ
  remoteCalls : List Blob
  tessCalls : List ImgSrc
deriving DecidableEq

/-- Step 3 of `runOCR`: `if (!result.text || !result.text.trim()) throw ...`. -/
def validateResult (res : Except RunErr EngineResult) : Except RunErr EngineResult :=
  match res with
  | .ok r => if jsTrim r.text = "" then .error .noTextAfter else .ok r
  | .error e => .error e

/-- `runOCR`: preprocess once, dispatch per `mode` ('tesseract' / 'ocrspace' /
anything else = auto with OCR.space first and a single Tesseract fallback),
then reject if the winning text is blank.  `net` is the OCR.space oracle and
`recW` the Tesseract oracle (per image source and page-segmentation mode). -/
def runOCR (infra : OrchInfra) (net : Blob → ℕ → OcrOpts → NetResponse)
    (recW : ImgSrc → String → Except String TessData)
    (src : ImgSrc) (o : RunOpts) : Except RunErr EngineResult × OrchLog :=
  let pp := preprocessPhase infra src o
  let processedBlob := pp.1
  let imageDataUrl := pp.2.1
  let step2 : Except RunErr EngineResult × List Blob × List ImgSrc :=
    if o.mode = "tesseract" ∨ (infra.v2Enabled = false ∧ o.mode = "auto") then
      match callTesseract (recW imageDataUrl) o.ocrSpaceOptions with
      | .ok (r, _) => (.ok r, [], [imageDataUrl])
      | .error m => (.error (.tessErr m), [], [imageDataUrl])
    else if o.mode = "ocrspace" then
      match (callOcrSpace net processedBlob (mergedOcrOpts o)).result with
      | .ok r => (.ok r, [processedBlob], [])
      | .error e => (.error (.remoteErr e), [processedBlob], [])
    else
      match (callOcrSpace net processedBlob (mergedOcrOpts o)).result with
      | .ok r => (.ok r, [processedBlob], [])
      | .error _ =>
        match callTesseract (recW imageDataUrl) o.ocrSpaceOptions with
        | .ok (r, _) => (.ok r, [processedBlob], [imageDataUrl])
        | .error m => (.error (.tessErr m), [processedBlob], [imageDataUrl])
  (validateResult step2.1, ⟨pp.2.2, step2.2.1, step2.2.2⟩)

/-! ### `preprocessImage` as a whole (the try/catch shell) -/

/-- The `<img>` the data URL decodes to (only its dimensions matter here). -/
structure Img where
  width : ℕ
  height : ℕ

/-- The browser facilities `preprocessImage` uses; `Except Unit` models an
operation that can throw/reject inside the `try` block. -/
structure PpEnv where
  readBlobAsDataUrl : Blob → String
  loadImg : String → Except Unit Img
  getPixels : Img → ℕ → ℕ → Except Unit (List Pixel)
  encode : ℕ → ℕ → List Pixel → Option Blob
  decodeUrl : String → Blob

/-- The body of the `try` block of `preprocessImage`: decode, resize, run the
pixel pipeline, re-encode (`canvas.toBlob` yielding `null` falls back to
`new Blob()`). -/
def ppTryBody (env : PpEnv) (src : ImgSrc) (o : PreprocessOptions) :
    Except Unit Blob := do
  let dataUrl := match src with
    | .blob b => env.readBlobAsDataUrl b
    | .url u => u
  let img ← env.loadImg dataUrl
  let dims := resizeDims img.width img.height o.maxWidth o.maxHeight
  let d ← env.getPixels img dims.1 dims.2
  let d2 := pipelineData o dims.1 dims.2 d
  pure (match env.encode dims.1 dims.2 d2 with | some b => b | none => ⟨[]⟩)

/-- The catch block of `preprocessImage`: return the original image as a blob. -/
def ppOriginal (env : PpEnv) (src : ImgSrc) : Blob :=
  match src with
  | .blob b => b
  | .url u => env.decodeUrl u

/-- `preprocessImage`: the try body, falling back to the original image on any
internal error. -/
def preprocessImage (env : PpEnv) (src : ImgSrc) (o : PreprocessOptions) : Blob :=
  match ppTryBody env src o with
  | .ok b => b
  | .error _ => ppOriginal env src

/-! ## Scenario oracles and helper lemmas -/

/-- A parsable OCR.space payload whose parsed text is blank. -/
def blankTextData : ApiData := ⟨false, none, [⟨"", false⟩]⟩

/-- An OCR.space payload with no `ParsedResults` entries at all. -/
def emptyParsedData : ApiData := ⟨false, none, []⟩

theorem jsTrim_nil : jsTrim "" = "" := rfl

/-- Against a network that always answers with a blank-text payload,
`callOcrSpace` issues three requests — toggling the engine variant and
flipping orientation detection together on every retry — and fails with
the EmptyResult error. -/
theorem callOcrSpace_blank (net : Blob → ℕ → OcrOpts → NetResponse) (blob : Blob)
    (o : OcrOpts) (h : ∀ b k oo, net b k oo = .success blankTextData) :
    (callOcrSpace net blob o).result = .error .noText ∧
    (callOcrSpace net blob o).requests = [o, altParams o, altParams (altParams o)] ∧
    (callOcrSpace net blob o).sleeps = [500, 1500] := by
  simp [callOcrSpace, callOcrSpaceGo, h, consAttempt, blankTextData, maxRetries,
    backoffMs, jsTrim_nil]

/-- Bound on the attempts any `callOcrSpaceGo` run can make: one attempt per
remaining retry budget. -/
theorem callOcrSpaceGo_requests_len (net : Blob → ℕ → OcrOpts → NetResponse)
    (blob : Blob) :
    ∀ (fuel : ℕ) (o : OcrOpts) (rc : ℕ), rc ≤ maxRetries →
      (callOcrSpaceGo net blob fuel o rc).requests.length ≤ maxRetries + 1 - rc := by
  intro fuel
  induction fuel with
  | zero =>
    intro o rc h
    simp only [callOcrSpaceGo, List.length_singleton]
    omega
  | succ n ih =>
    intro o rc h
    cases hresp : net blob rc o with
    | timeout =>
      simp only [callOcrSpaceGo, hresp, List.length_singleton]
      omega
    | httpError status body =>
      simp only [callOcrSpaceGo, hresp]
      by_cases h1 : status = 429 ∧ rc < maxRetries
      · rw [if_pos h1]
        simp only [consAttempt, List.length_cons]
        have := ih o (rc + 1) (by omega)
        omega
      · rw [if_neg h1]
        by_cases h2 : rc < maxRetries ∧ includesNoText (.httpError status body) = false
        · rw [if_pos h2]
          simp only [consAttempt, List.length_cons]
          have := ih o (rc + 1) (by omega)
          omega
        · rw [if_neg h2]
          simp only [List.length_singleton]
          omega
    | netFail m =>
      simp only [callOcrSpaceGo, hresp]
      by_cases h2 : rc < maxRetries ∧ includesNoText (.network m) = false
      · rw [if_pos h2]
        simp only [consAttempt, List.length_cons]
        have := ih o (rc + 1) (by omega)
        omega
      · rw [if_neg h2]
        simp only [List.length_singleton]
        omega
    | success data =>
      simp only [callOcrSpaceGo, hresp]
      by_cases he : data.IsErroredOnProcessing = true
      · rw [if_pos he]
        by_cases h2 : rc < maxRetries ∧
            includesNoText (.apiError (data.ErrorMessage.getD "Unknown OCR.space error")) = false
        · rw [if_pos h2]
          simp only [consAttempt, List.length_cons]
          have := ih o (rc + 1) (by omega)
          omega
        · rw [if_neg h2]
          simp only [List.length_singleton]
          omega
      · rw [if_neg he]
        cases hpr : data.ParsedResults with
        | nil =>
          dsimp only
          by_cases h2 : rc < maxRetries ∧ o.OCREngine = 2
          · rw [if_pos h2]
            simp only [consAttempt, List.length_cons]
            have := ih { o with OCREngine := 1 } (rc + 1) (by omega)
            omega
          · rw [if_neg h2]
            simp only [List.length_singleton]
            omega
        | cons pr rest =>
          dsimp only
          by_cases h2 : jsTrim pr.ParsedText = "" ∨ jsTrim pr.ParsedText = "No text detected"
          · rw [if_pos h2]
            by_cases h3 : rc < maxRetries
            · rw [if_pos h3]
              simp only [consAttempt, List.length_cons]
              have := ih (altParams o) (rc + 1) (by omega)
              omega
            · rw [if_neg h3]
              simp only [List.length_singleton]
              omega
          · rw [if_neg h2]
            simp only [List.length_singleton]
            omega

/-! ## C2: empty-result mitigation sequence -/

/-- C2 counterexample: with a network that always returns a blank-text
payload and the default options (OCREngine 2, detectOrientation true), the
three requests actually issued are `(2, true)`, `(1, false)`, `(2, true)`:
the orientation-detection flag is already flipped on the FIRST empty-result
retry (the claim says only on the second), and the engine variant is switched
twice, back to engine 2 (the claim says the switch is attempted at most
once). -/
theorem c2_counterexample_simultaneous_mitigations :
    ((callOcrSpace (fun _ _ _ => .success blankTextData) ⟨[]⟩ {}).requests.map
        fun o => (o.OCREngine, o.detectOrientation))
      = [(2, true), (1, false), (2, true)] ∧
    (callOcrSpace (fun _ _ _ => .success blankTextData) ⟨[]⟩ {}).result
      = .error .noText := by
  constructor
  · decide
  · rfl

/-- C2 (amended): on a blank-text payload, every retry (up to the shared
2-retry budget) simultaneously toggles the engine variant and flips the
orientation-detection flag (`altParams`), so the variant can be switched back
on the second retry; on an empty `ParsedResults` payload, the call retries
only when engine 2 is in use, switching to engine 1 with orientation
unchanged, at most once; in all these cases, once no mitigation applies or
the budget is exhausted, the call fails with the EmptyResult error
("No text detected"). -/
theorem c2_amended_mitigations :
    (∀ (net : Blob → ℕ → OcrOpts → NetResponse) (blob : Blob) (o : OcrOpts),
      (∀ b k oo, net b k oo = .success blankTextData) →
      (callOcrSpace net blob o).result = .error .noText ∧
      (callOcrSpace net blob o).requests = [o, altParams o, altParams (altParams o)] ∧
      (callOcrSpace net blob o).sleeps = [500, 1500]) ∧
    (∀ (net : Blob → ℕ → OcrOpts → NetResponse) (blob : Blob) (o : OcrOpts),
      (∀ b k oo, net b k oo = .success emptyParsedData) →
      (o.OCREngine = 2 →
        (callOcrSpace net blob o).result = .error .noText ∧
        (callOcrSpace net blob o).requests = [o, { o with OCREngine := 1 }] ∧
        (callOcrSpace net blob o).sleeps = [500]) ∧
      (o.OCREngine ≠ 2 →
        (callOcrSpace net blob o).result = .error .noText ∧
        (callOcrSpace net blob o).requests = [o] ∧
        (callOcrSpace net blob o).sleeps = [])) := by
  constructor
  · exact callOcrSpace_blank
  · intro net blob o h
    constructor
    · intro ho
      simp [callOcrSpace, callOcrSpaceGo, h, consAttempt, emptyParsedData, maxRetries,
        backoffMs, ho]
    · intro ho
      simp [callOcrSpace, callOcrSpaceGo, h, consAttempt, emptyParsedData, maxRetries,
        backoffMs, ho]

/-- C2 amended-claim witness at a concrete network and default options. -/
theorem c2_amended_mitigations_witness :
    ((callOcrSpace (fun _ _ _ => .success blankTextData) ⟨[]⟩ {}).result
        = .error .noText ∧
      (callOcrSpace (fun _ _ _ => .success blankTextData) ⟨[]⟩ {}).requests
        = [{}, altParams {}, altParams (altParams {})] ∧
      (callOcrSpace (fun _ _ _ => .success blankTextData) ⟨[]⟩ {}).sleeps
        = [500, 1500]) ∧
    ((callOcrSpace (fun _ _ _ => .success emptyParsedData) ⟨[]⟩ {}).result
        = .error .noText ∧
      (callOcrSpace (fun _ _ _ => .success emptyParsedData) ⟨[]⟩ {}).requests
        = [{}, { (({} : OcrOpts)) with OCREngine := 1 }] ∧
      (callOcrSpace (fun _ _ _ => .success emptyParsedData) ⟨[]⟩ {}).sleeps
        = [500]) :=
  ⟨c2_amended_mitigations.1 (fun _ _ _ => .success blankTextData) ⟨[]⟩ {}
      (fun _ _ _ => rfl),
    (c2_amended_mitigations.2 (fun _ _ _ => .success emptyParsedData) ⟨[]⟩ {}
      (fun _ _ _ => rfl)).1 rfl⟩

/-! ## C3: worker singleton under concurrent cold start -/

/-- C3 counterexample: a schedule where call B runs its null check while call
A is still suspended in `Tesseract.createWorker` makes BOTH calls create a
worker: two workers are created even though both calls complete. -/
theorem c3_counterexample_interleaved_creation :
    (wRun [false, true, false, true, false, true]).created = 2 ∧
    (wRun [false, true, false, true, false, true]).tA.pc = 3 ∧
    (wRun [false, true, false, true, false, true]).tB.pc = 3 := by
  decide

/-- C3 (amended): when one cold-start call completes before the other starts
(either order), exactly one worker is created and the second call reuses it;
but interleaved cold-start calls can create two workers, because the
`if (!tesseractWorker)` check and the assignment are separated by an `await`.
-/
theorem c3_amended_worker_creation :
    ((wRun [false, false, false, true]).created = 1 ∧
     (wRun [false, false, false, true]).worker = some 1 ∧
     (wRun [false, false, false, true]).tA.pc = 3 ∧
     (wRun [false, false, false, true]).tB.pc = 3) ∧
    ((wRun [true, true, true, false]).created = 1 ∧
     (wRun [true, true, true, false]).worker = some 1 ∧
     (wRun [true, true, true, false]).tA.pc = 3 ∧
     (wRun [true, true, true, false]).tB.pc = 3) ∧
    (wRun [false, true, false, true, false, true]).created = 2 := by
  decide

/-! ## C5: 429 rate-limit retries and backoff -/

/-- C5: a `callOcrSpace` call makes at most `maxRetries + 1 = 3` requests
(at most 2 retries); and against a network answering 429 twice and then a
well-formed non-blank success, the call succeeds after exactly 2 retries of
the unchanged request, sleeping the escalating backoff (500ms, then 1500ms)
before each retry. -/
theorem c5_rate_limit_retries_and_backoff :
    (∀ (net : Blob → ℕ → OcrOpts → NetResponse) (blob : Blob) (o : OcrOpts),
      (callOcrSpace net blob o).requests.length ≤ maxRetries + 1) ∧
    (∀ (net : Blob → ℕ → OcrOpts → NetResponse) (blob : Blob) (o : OcrOpts)
      (body1 body2 : String) (pd : ApiData) (pr : ParsedResult) (rest : List ParsedResult),
      net blob 0 o = .httpError 429 body1 →
      net blob 1 o = .httpError 429 body2 →
      net blob 2 o = .success pd →
      pd.IsErroredOnProcessing = false →
      pd.ParsedResults = pr :: rest →
      jsTrim pr.ParsedText ≠ "" →
      jsTrim pr.ParsedText ≠ "No text detected" →
      (callOcrSpace net blob o).result
          = .ok ⟨pr.ParsedText, "ocrspace", if pr.HasOverlay then "high" else "medium"⟩ ∧
      (callOcrSpace net blob o).requests = [o, o, o] ∧
      (callOcrSpace net blob o).sleeps = [500, 1500]) := by
  constructor
  · intro net blob o
    have := callOcrSpaceGo_requests_len net blob (maxRetries + 1) o 0 (by omega)
    simpa [callOcrSpace] using this
  · intro net blob o b1 b2 pd pr rest h0 h1 h2 he hpr ht1 ht2
    simp [callOcrSpace, callOcrSpaceGo, h0, h1, h2, he, hpr, ht1, ht2, consAttempt,
      maxRetries, backoffMs]

/-- The two-429s-then-success network used to witness C5. -/
def net429 : Blob → ℕ → OcrOpts → NetResponse := fun _ rc _ =>
  if rc < 2 then .httpError 429 "rate limited"
  else .success ⟨false, none, [⟨"INVOICE 12345", true⟩]⟩

/-- C5 witness at the concrete two-429s-then-success network. -/
theorem c5_rate_limit_witness :
    (callOcrSpace net429 ⟨[]⟩ {}).result = .ok ⟨"INVOICE 12345", "ocrspace", "high"⟩ ∧
    (callOcrSpace net429 ⟨[]⟩ {}).requests = [{}, {}, {}] ∧
    (callOcrSpace net429 ⟨[]⟩ {}).sleeps = [500, 1500] := by
  have := c5_rate_limit_retries_and_backoff.2 net429 ⟨[]⟩ {} "rate limited" "rate limited"
    ⟨false, none, [⟨"INVOICE 12345", true⟩]⟩ ⟨"INVOICE 12345", true⟩ []
    rfl rfl rfl rfl rfl (by decide) (by decide)
  simpa using this

/-! ## C6: local-adapter segmentation fallback -/

/-- C6 counterexample: with the primary page-segmentation mode set equal to
the fallback mode ("11") and a recognition that returns blank text, no
re-run happens (a single recognition, trace `["11"]`), even though the
claimed trigger condition (empty text) holds — the re-run additionally
requires the two modes to differ. -/
theorem c6_counterexample_equal_modes :
    callTesseract (fun _ => .ok ⟨"", 0⟩) { pagesegMode := "11" }
      = .ok (⟨"", "tesseract", "unknown"⟩, ["11"]) := by
  decide

/-- C6 (amended): the fallback recognition runs if and only if the primary
text is blank or its confidence is below 30 AND the primary mode differs
from the fallback mode; when it runs, the kept text is one of the two
attempts and its trimmed length is the maximum of the two trimmed lengths
(the fallback result is kept only when non-empty and strictly longer). -/
theorem c6_amended_psm_fallback :
    ∀ (recW : String → Except String TessData) (o : OcrOpts) (d d2 : TessData),
      recW o.pagesegMode = .ok d →
      recW o.fallbackPagesegMode = .ok d2 →
      (¬((jsTrim d.text = "" ∨ d.confidence < 30) ∧ o.pagesegMode ≠ o.fallbackPagesegMode) →
        callTesseract recW o
          = .ok (⟨d.text, "tesseract", confStr d.confidence⟩, [o.pagesegMode])) ∧
      (((jsTrim d.text = "" ∨ d.confidence < 30) ∧ o.pagesegMode ≠ o.fallbackPagesegMode) →
        ∃ r, callTesseract recW o = .ok (r, [o.pagesegMode, o.fallbackPagesegMode]) ∧
          (r.text = d.text ∨ r.text = d2.text) ∧
          (jsTrim r.text).length = max (jsTrim d.text).length (jsTrim d2.text).length) := by
  intro recW o d d2 hd hd2
  constructor
  · intro hneg
    simp [callTesseract, hd, hneg]
  · intro hpos
    by_cases hkeep : d2.text ≠ "" ∧ (jsTrim d.text).length < (jsTrim d2.text).length
    · refine ⟨⟨d2.text, "tesseract", confStr d2.confidence⟩, ?_, .inr rfl, ?_⟩
      · simp [callTesseract, hd, hd2, hpos, hkeep]
      · simp only []
        omega
    · refine ⟨⟨d.text, "tesseract", confStr d.confidence⟩, ?_, .inl rfl, ?_⟩
      · simp [callTesseract, hd, hd2, hpos, hkeep]
      · by_cases hz : d2.text = ""
        · simp [hz, jsTrim_nil]
        · simp only []
          push_neg at hkeep
          have := hkeep hz
          omega

/-- The blank-primary, short-fallback recognizer used to witness C6. -/
def rec6 : String → Except String TessData :=
  fun m => if m = "6" then .ok ⟨"", 10⟩ else .ok ⟨"hi", 0⟩

/-- C6 amended-claim witness: blank low-confidence primary triggers the
fallback run, and the longer non-empty fallback text is kept. -/
theorem c6_amended_psm_fallback_witness :
    ∃ r, callTesseract rec6 {} = .ok (r, ["6", "11"]) ∧
      (r.text = "" ∨ r.text = "hi") ∧
      (jsTrim r.text).length = max (jsTrim "").length (jsTrim "hi").length :=
  (c6_amended_psm_fallback rec6 {} ⟨"", 10⟩ ⟨"hi", 0⟩ rfl rfl).2 (by decide)

/-! ## C4: the preprocessor never fatally fails -/

/-- C4: `preprocessImage` always returns a blob: when any step of the try
body throws, the caller receives the original image re-encoded as a blob
(`ppOriginal`); otherwise it receives the processed encoding.  The function
is total by construction, mirroring the try/catch that converts every
internal transform error into the original-image fallback. -/
theorem c4_preprocess_never_fatal :
    ∀ (env : PpEnv) (src : ImgSrc) (o : PreprocessOptions),
      (∀ e, ppTryBody env src o = .error e →
        preprocessImage env src o = ppOriginal env src) ∧
      (∀ b, ppTryBody env src o = .ok b → preprocessImage env src o = b) := by
  intro env src o
  constructor
  · intro e he
    simp [preprocessImage, he]
  · intro b hb
    simp [preprocessImage, hb]

/-- A browser environment whose image decoding always throws. -/
def ppEnvFail : PpEnv :=
  ⟨fun _ => "durl", fun _ => .error (), fun _ _ _ => .error (), fun _ _ _ => none,
   fun _ => ⟨[7]⟩⟩

/-- C4 witness: with an environment whose decode throws, the original image
(re-encoded by `fetch`) is returned. -/
theorem c4_preprocess_never_fatal_witness :
    ppTryBody ppEnvFail (.url "img") {} = .error () ∧
    preprocessImage ppEnvFail (.url "img") {} = ppOriginal ppEnvFail (.url "img") ∧
    ppOriginal ppEnvFail (.url "img") = ⟨[7]⟩ :=
  ⟨rfl, (c4_preprocess_never_fatal ppEnvFail (.url "img") {}).1 () rfl, rfl⟩

/-! ## C10: every pipeline stage leaves alpha untouched -/

/-- A pixel-buffer transform that preserves the length and every alpha. -/
def APres (f : List Pixel → List Pixel) : Prop :=
  ∀ d : List Pixel, (f d).length = d.length ∧
    ∀ i, i < d.length → ((f d).getD i ⟨0, 0, 0, 0⟩).a = (d.getD i ⟨0, 0, 0, 0⟩).a

theorem alpha_map_getD (g : Pixel → Pixel) (hg : ∀ p, (g p).a = p.a) (d : List Pixel) :
    (d.map g).length = d.length ∧
    ∀ i, i < d.length → ((d.map g).getD i ⟨0, 0, 0, 0⟩).a = (d.getD i ⟨0, 0, 0, 0⟩).a := by
  refine ⟨by simp, ?_⟩
  intro i hi
  rw [List.getD_eq_getElem?_getD, List.getD_eq_getElem?_getD, List.getElem?_map,
    List.getElem?_eq_getElem hi]
  simp [hg]

theorem APres_grayscale : APres grayscaleStage := by
  intro d
  unfold grayscaleStage
  refine alpha_map_getD _ ?_ d
  intro p
  rfl

theorem APres_contrast (factor : ℚ) : APres (contrastStage factor) := by
  intro d
  unfold contrastStage
  refine alpha_map_getD _ ?_ d
  intro p
  rfl

theorem APres_binarize : APres binarizeStage := by
  intro d
  unfold binarizeStage
  refine alpha_map_getD _ ?_ d
  intro p
  rfl

theorem APres_sharpen (w h : ℕ) : APres (sharpenStage w h) := by
  intro d
  refine ⟨by simp [sharpenStage], ?_⟩
  intro i hi
  rw [sharpenStage, List.getD_eq_getElem?_getD, List.getD_eq_getElem?_getD,
    List.getElem?_map, List.getElem?_range hi]
  simp only [Option.map_some', Option.getD_some]
  split <;> simp

theorem APres_ite (c : Bool) (f : List Pixel → List Pixel) (hf : APres f) :
    APres (fun d => if c then f d else d) := by
  intro d
  cases c
  · simp
  · simpa using hf d

theorem APres_comp (f g : List Pixel → List Pixel) (hf : APres f) (hg : APres g) :
    APres (fun d => g (f d)) := by
  intro d
  obtain ⟨hfl, hfa⟩ := hf d
  obtain ⟨hgl, hga⟩ := hg (f d)
  refine ⟨by rw [hgl, hfl], ?_⟩
  intro i hi
  rw [hga i (by omega), hfa i hi]

/-- C10: for every option combination, the composed pixel pipeline
(grayscale, contrast, binarization, sharpen) keeps the buffer length and the
alpha component of every pixel unchanged; only R, G and B are rewritten. -/
theorem c10_alpha_preserved :
    ∀ (o : PreprocessOptions) (w h : ℕ) (d : List Pixel),
      (pipelineData o w h d).length = d.length ∧
      ∀ i, i < d.length →
        ((pipelineData o w h d).getD i ⟨0, 0, 0, 0⟩).a = (d.getD i ⟨0, 0, 0, 0⟩).a := by
  intro o w h d
  have h1 := APres_ite o.enableGrayscale grayscaleStage APres_grayscale
  have h2 := APres_ite o.enableContrast (contrastStage o.contrastFactor)
    (APres_contrast o.contrastFactor)
  have h3 := APres_ite o.enableBinarization binarizeStage APres_binarize
  have h4 := APres_ite o.enableSharpen (sharpenStage w h) (APres_sharpen w h)
  exact APres_comp _ _ (APres_comp _ _ (APres_comp _ _ h1 h2) h3) h4 d

/-- C10 witness: a full pipeline (all four stages enabled) on a concrete
pixel keeps its alpha 77. -/
theorem c10_alpha_preserved_witness :
    (pipelineData { enableBinarization := true, enableSharpen := true } 1 1
        [⟨7, 8, 9, 77⟩]).length = 1 ∧
    ((pipelineData { enableBinarization := true, enableSharpen := true } 1 1
        [⟨7, 8, 9, 77⟩]).getD 0 ⟨0, 0, 0, 0⟩).a = 77 := by
  have h := c10_alpha_preserved { enableBinarization := true, enableSharpen := true } 1 1
    [⟨7, 8, 9, 77⟩]
  exact ⟨h.1, (h.2 0 (by decide)).trans rfl⟩


/-! ## C8: resize bounds and aspect preservation -/

theorem jsRound_eq_floor (q : ℚ) : jsRound q = ⌊q + 1/2⌋ := round_eq q

theorem toNat_jsRound_le (q : ℚ) (n : ℕ) (hq : q ≤ n) : (jsRound q).toNat ≤ n := by
  rw [jsRound_eq_floor]
  have h1 : ⌊q + 1/2⌋ < (n : ℤ) + 1 := by
    apply Int.floor_lt.mpr
    push_cast
    linarith
  have h2 : ⌊q + 1/2⌋ ≤ (n : ℤ) := by omega
  exact Int.toNat_le.mpr h2

theorem abs_toNat_jsRound (q : ℚ) (hq : 0 ≤ q) :
    |((jsRound q).toNat : ℚ) - q| ≤ 1/2 := by
  have hnn : 0 ≤ jsRound q := by
    rw [jsRound_eq_floor]
    exact Int.floor_nonneg.mpr (by linarith)
  have hcast : ((jsRound q).toNat : ℚ) = ((jsRound q : ℤ) : ℚ) := by
    exact_mod_cast congrArg (fun t : ℤ => (t : ℚ)) (Int.toNat_of_nonneg hnn)
  rw [hcast, jsRound_eq_floor]
  have h1 := Int.floor_le (q + 1/2)
  have h2 := Int.lt_floor_add_one (q + 1/2)
  rw [abs_le]
  constructor <;> push_cast at h1 h2 ⊢ <;> linarith

/-- C8: when both sides are within the bounds the resize leaves the
dimensions unchanged (no upscaling); when a side exceeds its bound, both
output sides are at most their bounds, at most the input sides, and each is
within half a pixel of the exact common-scale value
`side * min(maxWidth/width, maxHeight/height)` — so the aspect ratio is
preserved within ±1px. -/
theorem c8_resize_dims :
    ∀ (w h maxW maxH : ℕ), 0 < w → 0 < h →
      (w ≤ maxW ∧ h ≤ maxH → resizeDims w h maxW maxH = (w, h)) ∧
      (maxW < w ∨ maxH < h →
        (resizeDims w h maxW maxH).1 ≤ maxW ∧
        (resizeDims w h maxW maxH).2 ≤ maxH ∧
        (resizeDims w h maxW maxH).1 ≤ w ∧
        (resizeDims w h maxW maxH).2 ≤ h ∧
        |((resizeDims w h maxW maxH).1 : ℚ) - w * resizeScale w h maxW maxH| ≤ 1/2 ∧
        |((resizeDims w h maxW maxH).2 : ℚ) - h * resizeScale w h maxW maxH| ≤ 1/2) := by
  intro w h maxW maxH hw hh
  constructor
  · rintro ⟨h1, h2⟩
    unfold resizeDims
    rw [if_neg (by omega)]
  · intro hcond
    have hw0 : (0:ℚ) < w := by exact_mod_cast hw
    have hh0 : (0:ℚ) < h := by exact_mod_cast hh
    have hk0 : 0 ≤ resizeScale w h maxW maxH := by
      unfold resizeScale
      apply le_min <;> positivity
    have hkw : (w:ℚ) * resizeScale w h maxW maxH ≤ maxW := by
      have h1 : resizeScale w h maxW maxH ≤ (maxW:ℚ)/w := min_le_left _ _
      calc (w:ℚ) * resizeScale w h maxW maxH ≤ (w:ℚ) * ((maxW:ℚ)/w) :=
            mul_le_mul_of_nonneg_left h1 (le_of_lt hw0)
        _ = maxW := by field_simp
    have hkh : (h:ℚ) * resizeScale w h maxW maxH ≤ maxH := by
      have h1 : resizeScale w h maxW maxH ≤ (maxH:ℚ)/h := min_le_right _ _
      calc (h:ℚ) * resizeScale w h maxW maxH ≤ (h:ℚ) * ((maxH:ℚ)/h) :=
            mul_le_mul_of_nonneg_left h1 (le_of_lt hh0)
        _ = maxH := by field_simp
    have hk1 : resizeScale w h maxW maxH ≤ 1 := by
      unfold resizeScale
      rcases hcond with hc | hc
      · apply le_trans (min_le_left _ _)
        rw [div_le_one hw0]
        exact_mod_cast le_of_lt hc
      · apply le_trans (min_le_right _ _)
        rw [div_le_one hh0]
        exact_mod_cast le_of_lt hc
    have hxw : (w:ℚ) * resizeScale w h maxW maxH ≤ w := by
      calc (w:ℚ) * resizeScale w h maxW maxH ≤ (w:ℚ) * 1 :=
            mul_le_mul_of_nonneg_left hk1 (le_of_lt hw0)
        _ = w := mul_one _
    have hxh : (h:ℚ) * resizeScale w h maxW maxH ≤ h := by
      calc (h:ℚ) * resizeScale w h maxW maxH ≤ (h:ℚ) * 1 :=
            mul_le_mul_of_nonneg_left hk1 (le_of_lt hh0)
        _ = h := mul_one _
    unfold resizeDims
    rw [if_pos hcond]
    exact ⟨toNat_jsRound_le _ _ hkw, toNat_jsRound_le _ _ hkh,
      toNat_jsRound_le _ _ hxw, toNat_jsRound_le _ _ hxh,
      abs_toNat_jsRound _ (mul_nonneg (le_of_lt hw0) hk0),
      abs_toNat_jsRound _ (mul_nonneg (le_of_lt hh0) hk0)⟩

/-- C8 witness at a small in-bounds image and a 4000×3000 over-bound image. -/
theorem c8_resize_dims_witness :
    resizeDims 100 50 2000 2000 = (100, 50) ∧
    (resizeDims 4000 3000 2000 2000).1 ≤ 2000 ∧
    (resizeDims 4000 3000 2000 2000).2 ≤ 2000 ∧
    |((resizeDims 4000 3000 2000 2000).1 : ℚ) - 4000 * resizeScale 4000 3000 2000 2000| ≤ 1/2 ∧
    |((resizeDims 4000 3000 2000 2000).2 : ℚ) - 3000 * resizeScale 4000 3000 2000 2000| ≤ 1/2 := by
  have h1 := (c8_resize_dims 100 50 2000 2000 (by decide) (by decide)).1
    ⟨by decide, by decide⟩
  have h2 := (c8_resize_dims 4000 3000 2000 2000 (by decide) (by decide)).2 (by decide)
  exact ⟨h1, h2.1, h2.2.1, h2.2.2.2.2.1, h2.2.2.2.2.2⟩


/-! ## C1: orchestrator mode policy, and C7: blank text is never success -/

theorem preprocessPhase_count (infra : OrchInfra) (src : ImgSrc) (o : RunOpts)
    (hv2 : infra.v2Enabled = true) :
    (preprocessPhase infra src o).2.2 = if o.enablePreprocessing then 1 else 0 := by
  unfold preprocessPhase
  by_cases hp : o.enablePreprocessing
  · simp only [hp, hv2, if_true, true_and]
    cases infra.ppOutcome src o.preprocessingOptions <;> simp
  · simp [hp]

theorem preprocessPhase_success (infra : OrchInfra) (src : ImgSrc) (o : RunOpts)
    (b : Blob) (hv2 : infra.v2Enabled = true)
    (hpp : infra.ppOutcome src o.preprocessingOptions = some b)
    (hen : o.enablePreprocessing = true) :
    (preprocessPhase infra src o).1 = b ∧
    (preprocessPhase infra src o).2.1 = .url (infra.blobToDataUrl b) := by
  unfold preprocessPhase
  simp [hv2, hen, hpp]

/-- C1: with the orchestration pipeline enabled (the default), an `auto`
call preprocesses at most once (exactly once when preprocessing is enabled),
invokes the remote adapter exactly once on the preprocessed blob, falls back
to the local adapter exactly once — on the data URL of that same
preprocessed blob — precisely when the remote adapter call failed, and never
re-invokes the remote adapter; in the single-engine modes the selected
adapter is the only one invoked and its failure propagates to the caller
unchanged. -/
theorem c1_orchestrator_policy :
    ∀ (infra : OrchInfra) (net : Blob → ℕ → OcrOpts → NetResponse)
      (recW : ImgSrc → String → Except String TessData) (src : ImgSrc) (o : RunOpts),
      infra.v2Enabled = true →
      (o.mode = "auto" →
        (runOCR infra net recW src o).2.ppCalls = (if o.enablePreprocessing then 1 else 0) ∧
        (runOCR infra net recW src o).2.remoteCalls = [(preprocessPhase infra src o).1] ∧
        ((callOcrSpace net (preprocessPhase infra src o).1 (mergedOcrOpts o)).result.isOk = true →
          (runOCR infra net recW src o).2.tessCalls = []) ∧
        (∀ e, (callOcrSpace net (preprocessPhase infra src o).1 (mergedOcrOpts o)).result
            = .error e →
          (runOCR infra net recW src o).2.tessCalls = [(preprocessPhase infra src o).2.1]) ∧
        (∀ b, infra.ppOutcome src o.preprocessingOptions = some b →
          o.enablePreprocessing = true →
          (preprocessPhase infra src o).1 = b ∧
          (preprocessPhase infra src o).2.1 = .url (infra.blobToDataUrl b))) ∧
      (o.mode = "ocrspace" →
        (runOCR infra net recW src o).2.tessCalls = [] ∧
        (runOCR infra net recW src o).2.remoteCalls = [(preprocessPhase infra src o).1] ∧
        (∀ e, (callOcrSpace net (preprocessPhase infra src o).1 (mergedOcrOpts o)).result
            = .error e →
          (runOCR infra net recW src o).1 = .error (.remoteErr e))) ∧
      (o.mode = "tesseract" →
        (runOCR infra net recW src o).2.remoteCalls = [] ∧
        (runOCR infra net recW src o).2.tessCalls = [(preprocessPhase infra src o).2.1] ∧
        (∀ m, callTesseract (recW (preprocessPhase infra src o).2.1) o.ocrSpaceOptions
            = .error m →
          (runOCR infra net recW src o).1 = .error (.tessErr m))) := by
  intro infra net recW src o hv2
  refine ⟨?_, ?_, ?_⟩
  · intro hm
    have hc1 : ¬(o.mode = "tesseract" ∨ (infra.v2Enabled = false ∧ o.mode = "auto")) := by
      simp [hm, hv2]
    have hc2 : ¬(o.mode = "ocrspace") := by simp [hm]
    cases hro : (callOcrSpace net (preprocessPhase infra src o).1 (mergedOcrOpts o)).result with
    | ok r =>
      refine ⟨?_, ?_, ?_, ?_, ?_⟩
      · simp [runOCR, hc1, hc2, hro, preprocessPhase_count infra src o hv2]
      · simp [runOCR, hc1, hc2, hro]
      · intro _
        simp [runOCR, hc1, hc2, hro]
      · intro e he
        exact absurd he (by simp)
      · intro b hb hen
        exact preprocessPhase_success infra src o b hv2 hb hen
    | error e =>
      cases hrt : callTesseract (recW (preprocessPhase infra src o).2.1) o.ocrSpaceOptions with
      | ok rp =>
        refine ⟨?_, ?_, ?_, ?_, ?_⟩
        · simp [runOCR, hc1, hc2, hro, hrt, preprocessPhase_count infra src o hv2]
        · simp [runOCR, hc1, hc2, hro, hrt]
        · intro hok
          simp [Except.isOk, Except.toBool] at hok
        · intro e2 he2
          simp [runOCR, hc1, hc2, hro, hrt]
        · intro b hb hen
          exact preprocessPhase_success infra src o b hv2 hb hen
      | error m =>
        refine ⟨?_, ?_, ?_, ?_, ?_⟩
        · simp [runOCR, hc1, hc2, hro, hrt, preprocessPhase_count infra src o hv2]
        · simp [runOCR, hc1, hc2, hro, hrt]
        · intro hok
          simp [Except.isOk, Except.toBool] at hok
        · intro e2 he2
          simp [runOCR, hc1, hc2, hro, hrt]
        · intro b hb hen
          exact preprocessPhase_success infra src o b hv2 hb hen
  · intro hm
    have hc1 : ¬(o.mode = "tesseract" ∨ (infra.v2Enabled = false ∧ o.mode = "auto")) := by
      simp [hm, hv2]
    have hc2 : o.mode = "ocrspace" := hm
    cases hro : (callOcrSpace net (preprocessPhase infra src o).1 (mergedOcrOpts o)).result with
    | ok r =>
      refine ⟨?_, ?_, ?_⟩
      · simp [runOCR, hc1, hc2, hro]
      · simp [runOCR, hc1, hc2, hro]
      · intro e he
        exact absurd he (by simp)
    | error e =>
      refine ⟨?_, ?_, ?_⟩
      · simp [runOCR, hc1, hc2, hro]
      · simp [runOCR, hc1, hc2, hro]
      · intro e2 he2
        obtain rfl : e = e2 := by simpa using he2
        simp [runOCR, hc1, hc2, hro, validateResult]
  · intro hm
    have hc1 : o.mode = "tesseract" ∨ (infra.v2Enabled = false ∧ o.mode = "auto") := .inl hm
    cases hrt : callTesseract (recW (preprocessPhase infra src o).2.1) o.ocrSpaceOptions with
    | ok rp =>
      refine ⟨?_, ?_, ?_⟩
      · simp [runOCR, hc1, hrt]
      · simp [runOCR, hc1, hrt]
      · intro m hme
        exact absurd hme (by simp)
    | error m =>
      refine ⟨?_, ?_, ?_⟩
      · simp [runOCR, hc1, hrt]
      · simp [runOCR, hc1, hrt]
      · intro m2 hme
        obtain rfl : m = m2 := by simpa using hme
        simp [runOCR, hc1, hrt, validateResult]


/-- A concrete orchestrator environment for witnesses: v2 enabled,
preprocessing succeeds with blob `[1]` whose data URL is "dataurl". -/
def infra1 : OrchInfra := ⟨true, fun _ _ => some ⟨[1]⟩, fun _ => "dataurl", fun _ => ⟨[9]⟩⟩

/-- C1 witness: an always-timing-out remote and a succeeding local engine, in
auto mode: one preprocessing pass, one remote call on the preprocessed blob,
one local fallback on its data URL. -/
theorem c1_orchestrator_policy_witness :
    (runOCR infra1 (fun _ _ _ => .timeout) (fun _ _ => .ok ⟨"hello", 80⟩)
        (.url "img") {}).2.ppCalls = 1 ∧
    (runOCR infra1 (fun _ _ _ => .timeout) (fun _ _ => .ok ⟨"hello", 80⟩)
        (.url "img") {}).2.remoteCalls = [⟨[1]⟩] ∧
    (runOCR infra1 (fun _ _ _ => .timeout) (fun _ _ => .ok ⟨"hello", 80⟩)
        (.url "img") {}).2.tessCalls = [.url "dataurl"] := by
  have h := (c1_orchestrator_policy infra1 (fun _ _ _ => .timeout)
    (fun _ _ => .ok ⟨"hello", 80⟩) (.url "img") {} rfl).1 rfl
  have hphase := h.2.2.2.2 ⟨[1]⟩ rfl rfl
  have htess := h.2.2.2.1 .timeout rfl
  refine ⟨?_, ?_, ?_⟩
  · simpa using h.1
  · rw [h.2.1, hphase.1]
  · rw [htess, hphase.2]
    rfl

/-- Against a recognizer that always returns blank text, `callTesseract`
returns a blank-text success (with either one or two attempts). -/
theorem callTesseract_blank (o : OcrOpts) :
    ∃ tr, callTesseract (fun _ => .ok ⟨"", 0⟩) o
      = .ok (⟨"", "tesseract", confStr 0⟩, tr) := by
  by_cases hp : o.pagesegMode = o.fallbackPagesegMode
  · refine ⟨[o.pagesegMode], ?_⟩
    simp [callTesseract, hp, jsTrim_nil]
  · refine ⟨[o.pagesegMode, o.fallbackPagesegMode], ?_⟩
    simp [callTesseract, hp, jsTrim_nil]

/-- C7: `runOCR` never returns a success whose text is empty or
whitespace-only — any such candidate is converted into the terminal
"No text detected after OCR processing" rejection; and when every engine
yields blank text (blank-text remote payloads, blank local recognition) an
`auto` call attempts the local fallback exactly once and still fails with
that single terminal error instead of returning an outcome. -/
theorem c7_blank_text_is_failure :
    (∀ (infra : OrchInfra) (net : Blob → ℕ → OcrOpts → NetResponse)
      (recW : ImgSrc → String → Except String TessData) (src : ImgSrc) (o : RunOpts)
      (r : EngineResult),
      (runOCR infra net recW src o).1 = .ok r → jsTrim r.text ≠ "") ∧
    (∀ (infra : OrchInfra) (src : ImgSrc) (o : RunOpts),
      infra.v2Enabled = true → o.mode = "auto" →
      (runOCR infra (fun _ _ _ => .success blankTextData) (fun _ _ => .ok ⟨"", 0⟩)
          src o).1 = .error .noTextAfter ∧
      (runOCR infra (fun _ _ _ => .success blankTextData) (fun _ _ => .ok ⟨"", 0⟩)
          src o).2.tessCalls.length = 1) := by
  constructor
  · intro infra net recW src o r h
    have hval : ∀ (x : Except RunErr EngineResult),
        validateResult x = .ok r → jsTrim r.text ≠ "" := by
      intro x hx
      cases x with
      | error e => simp [validateResult] at hx
      | ok r2 =>
        simp only [validateResult] at hx
        by_cases hb : jsTrim r2.text = ""
        · rw [if_pos hb] at hx
          exact absurd hx (by simp)
        · rw [if_neg hb] at hx
          obtain rfl : r2 = r := by simpa using hx
          exact hb
    exact hval _ h
  · intro infra src o hv2 hm
    have hc1 : ¬(o.mode = "tesseract" ∨ (infra.v2Enabled = false ∧ o.mode = "auto")) := by
      simp [hm, hv2]
    have hc2 : ¬o.mode = "ocrspace" := by simp [hm]
    have hro := (callOcrSpace_blank (fun _ _ _ => .success blankTextData)
      (preprocessPhase infra src o).1 (mergedOcrOpts o) (fun _ _ _ => rfl)).1
    obtain ⟨tr, htr⟩ := callTesseract_blank o.ocrSpaceOptions
    constructor
    · simp [runOCR, hc1, hc2, hro, htr, validateResult, jsTrim_nil]
    · simp [runOCR, hc1, hc2, hro, htr]

/-- C7 witness at a concrete environment where both engines yield blank
text. -/
theorem c7_blank_text_is_failure_witness :
    (runOCR infra1 (fun _ _ _ => .success blankTextData) (fun _ _ => .ok ⟨"", 0⟩)
        (.url "img") {}).1 = .error .noTextAfter ∧
    (runOCR infra1 (fun _ _ _ => .success blankTextData) (fun _ _ => .ok ⟨"", 0⟩)
        (.url "img") {}).2.tessCalls.length = 1 :=
  c7_blank_text_is_failure.2 infra1 (.url "img") {} rfl rfl


/-! ## C9: binarization output and the Otsu threshold -/

/-- The inter-class variance the binarization loop computes at a candidate
threshold `t`: `wB * wF * (mB - mF)^2` with `wB = cumW (t+1)`,
`wF = N - wB`, `mB = sumB/wB`, `mF = (sum - sumB)/wF`; defined as 0 when
either class is empty (the loop skips those candidates). -/
def interClassVar (hist : ℕ → ℕ) (N : ℕ) (t : ℕ) : ℚ :=
  if (cumW hist (t + 1) : ℚ) = 0 ∨ (N : ℚ) - cumW hist (t + 1) = 0 then 0
  else
    (cumW hist (t + 1) : ℚ) * ((N : ℚ) - cumW hist (t + 1)) *
      (cumS hist (t + 1) / cumW hist (t + 1)
        - (cumS hist 256 - cumS hist (t + 1)) / ((N : ℚ) - cumW hist (t + 1))) *
      (cumS hist (t + 1) / cumW hist (t + 1)
        - (cumS hist 256 - cumS hist (t + 1)) / ((N : ℚ) - cumW hist (t + 1)))

theorem cumW_succ (hist : ℕ → ℕ) (k : ℕ) : cumW hist (k + 1) = cumW hist k + hist k :=
  Finset.sum_range_succ hist k

theorem cumS_succ (hist : ℕ → ℕ) (k : ℕ) :
    cumS hist (k + 1) = cumS hist k + (k : ℚ) * hist k :=
  Finset.sum_range_succ (fun j => (j : ℚ) * hist j) k

theorem cumW_mono (hist : ℕ → ℕ) {k m : ℕ} (h : k ≤ m) : cumW hist k ≤ cumW hist m :=
  Finset.sum_le_sum_of_subset (Finset.range_subset.mpr h)

theorem cumW_zero (hist : ℕ → ℕ) : cumW hist 0 = 0 := rfl

theorem cumS_zero (hist : ℕ → ℕ) : cumS hist 0 = 0 := rfl

theorem interClassVar_nonneg (hist : ℕ → ℕ) (N : ℕ) (Hsum : cumW hist 256 = N)
    (t : ℕ) (ht : t < 256) : 0 ≤ interClassVar hist N t := by
  unfold interClassVar
  by_cases h : (cumW hist (t + 1) : ℚ) = 0 ∨ (N : ℚ) - cumW hist (t + 1) = 0
  · rw [if_pos h]
  · rw [if_neg h]
    have hwB : (0:ℚ) ≤ cumW hist (t + 1) := Nat.cast_nonneg _
    have hle : cumW hist (t + 1) ≤ N := by
      have := cumW_mono hist (show t + 1 ≤ 256 by omega)
      rwa [Hsum] at this
    have hwF : (0:ℚ) ≤ (N : ℚ) - cumW hist (t + 1) := by
      have : (cumW hist (t + 1) : ℚ) ≤ (N : ℚ) := by exact_mod_cast hle
      linarith
    set x : ℚ := cumS hist (t + 1) / cumW hist (t + 1)
      - (cumS hist 256 - cumS hist (t + 1)) / ((N : ℚ) - cumW hist (t + 1)) with hx
    have : (cumW hist (t + 1) : ℚ) * ((N : ℚ) - cumW hist (t + 1)) * x * x
        = ((cumW hist (t + 1) : ℚ) * ((N : ℚ) - cumW hist (t + 1))) * (x * x) := by
      ring
    rw [this]
    exact mul_nonneg (mul_nonneg hwB hwF) (mul_self_nonneg x)

theorem interClassVar_of_full (hist : ℕ → ℕ) (N : ℕ) (t : ℕ)
    (h : (cumW hist (t + 1) : ℚ) = (N : ℚ)) : interClassVar hist N t = 0 := by
  unfold interClassVar
  rw [if_pos (.inr (by rw [h]; ring))]

/-- Invariant of the Otsu selection loop: starting from a state whose
accumulators match the first `k` bins and whose `maxVar`/`threshold` pair is
sound, the final state's `maxVar` dominates the inter-class variance of
every candidate threshold, and is attained by the recorded threshold (or is
0 with the untouched default threshold 128). -/
theorem otsuGo_spec (hist : ℕ → ℕ) (N : ℕ) (Hsum : cumW hist 256 = N) :
    ∀ (n k : ℕ) (s : OtsuSt), k + n = 256 →
      s.wB = (cumW hist k : ℚ) →
      s.sumB = cumS hist k →
      0 ≤ s.maxVar →
      (∀ j, j < k → interClassVar hist N j ≤ s.maxVar) →
      (s.maxVar = 0 ∧ s.threshold = 128 ∨
        interClassVar hist N s.threshold = s.maxVar) →
      (∀ t, t < 256 →
        interClassVar hist N t
          ≤ (otsuGo hist N (cumS hist 256) (List.range' k n) s).maxVar) ∧
      ((otsuGo hist N (cumS hist 256) (List.range' k n) s).maxVar = 0 ∧
          (otsuGo hist N (cumS hist 256) (List.range' k n) s).threshold = 128 ∨
        interClassVar hist N
            (otsuGo hist N (cumS hist 256) (List.range' k n) s).threshold
          = (otsuGo hist N (cumS hist 256) (List.range' k n) s).maxVar) := by
  intro n
  induction n with
  | zero =>
    intro k s hk hwb hsb hmv hall hatt
    have hk256 : k = 256 := by omega
    subst hk256
    simp only [List.range', otsuGo]
    exact ⟨fun t ht => hall t ht, hatt⟩
  | succ n ih =>
    intro k s hk hwb hsb hmv hall hatt
    rw [List.range'_succ]
    simp only [otsuGo]
    by_cases hw : s.wB + (hist k : ℚ) = 0
    · rw [if_pos hw]
      have hcast : (cumW hist k : ℚ) + (hist k : ℚ) = 0 := by rw [← hwb]; exact hw
      have hboth : cumW hist k + hist k = 0 := by exact_mod_cast hcast
      have hW0 : cumW hist k = 0 := by omega
      have hH0 : hist k = 0 := by omega
      apply ih (k + 1)
      · omega
      · show s.wB + (hist k : ℚ) = (cumW hist (k + 1) : ℚ)
        rw [hw, cumW_succ, hW0, hH0]
        norm_num
      · show s.sumB = cumS hist (k + 1)
        rw [hsb, cumS_succ, hH0]
        push_cast
        ring
      · exact hmv
      · intro j hj
        rcases Nat.lt_succ_iff_lt_or_eq.mp hj with hj2 | rfl
        · exact hall j hj2
        · have hz : (cumW hist (j + 1) : ℚ) = 0 := by
            rw [cumW_succ, hW0, hH0]
            norm_num
          unfold interClassVar
          rw [if_pos (.inl hz)]
          exact hmv
      · exact hatt
    · rw [if_neg hw]
      by_cases hwf : (N : ℚ) - (s.wB + (hist k : ℚ)) = 0
      · rw [if_pos hwf]
        have hfull : (cumW hist (k + 1) : ℚ) = (N : ℚ) := by
          rw [cumW_succ]
          push_cast
          rw [← hwb]
          linarith
        constructor
        · intro t ht
          rcases lt_or_le t k with htk | htk
          · exact hall t htk
          · have hbig : (cumW hist (t + 1) : ℚ) = (N : ℚ) := by
              have h1 : cumW hist (k + 1) ≤ cumW hist (t + 1) := cumW_mono hist (by omega)
              have h2 : cumW hist (t + 1) ≤ N := by
                have := cumW_mono hist (show t + 1 ≤ 256 by omega)
                rwa [Hsum] at this
              have h1q : (cumW hist (k + 1) : ℚ) ≤ (cumW hist (t + 1) : ℚ) := by
                exact_mod_cast h1
              have h2q : (cumW hist (t + 1) : ℚ) ≤ (N : ℚ) := by exact_mod_cast h2
              linarith [hfull]
            rw [interClassVar_of_full hist N t hbig]
            exact hmv
        · exact hatt
      · rw [if_neg hwf]
        have hwb1 : s.wB + (hist k : ℚ) = (cumW hist (k + 1) : ℚ) := by
          rw [hwb, cumW_succ]
          push_cast
          ring
        have hsb1 : s.sumB + (k : ℚ) * hist k = cumS hist (k + 1) := by
          rw [hsb, cumS_succ]
        have hvar : (s.wB + (hist k : ℚ)) * ((N : ℚ) - (s.wB + hist k)) *
              ((s.sumB + (k : ℚ) * hist k) / (s.wB + hist k)
                - (cumS hist 256 - (s.sumB + (k : ℚ) * hist k)) / ((N : ℚ) - (s.wB + hist k))) *
              ((s.sumB + (k : ℚ) * hist k) / (s.wB + hist k)
                - (cumS hist 256 - (s.sumB + (k : ℚ) * hist k)) / ((N : ℚ) - (s.wB + hist k)))
            = interClassVar hist N k := by
          unfold interClassVar
          rw [if_neg (by
            push_neg
            constructor
            · rw [← hwb1]; exact hw
            · rw [← hwb1]; exact hwf)]
          rw [← hwb1, ← hsb1]
        by_cases hlt : s.maxVar <
            (s.wB + (hist k : ℚ)) * ((N : ℚ) - (s.wB + hist k)) *
              ((s.sumB + (k : ℚ) * hist k) / (s.wB + hist k)
                - (cumS hist 256 - (s.sumB + (k : ℚ) * hist k)) / ((N : ℚ) - (s.wB + hist k))) *
              ((s.sumB + (k : ℚ) * hist k) / (s.wB + hist k)
                - (cumS hist 256 - (s.sumB + (k : ℚ) * hist k)) / ((N : ℚ) - (s.wB + hist k)))
        · rw [if_pos hlt]
          apply ih (k + 1)
          · omega
          · exact hwb1
          · exact hsb1
          · exact le_of_lt (lt_of_le_of_lt hmv hlt)
          · intro j hj
            rcases Nat.lt_succ_iff_lt_or_eq.mp hj with hj2 | rfl
            · exact le_of_lt (lt_of_le_of_lt (hall j hj2) (hvar ▸ hlt))
            · rw [← hvar]
          · right
            exact hvar.symm
        · rw [if_neg hlt]
          apply ih (k + 1)
          · omega
          · exact hwb1
          · exact hsb1
          · exact hmv
          · intro j hj
            rcases Nat.lt_succ_iff_lt_or_eq.mp hj with hj2 | rfl
            · exact hall j hj2
            · rw [← hvar]
              exact le_of_not_lt hlt
          · exact hatt


/-- The R-channel histogram of a buffer with byte-valued channels sums to
the pixel count. -/
theorem sum_pixelHist (d : List Pixel) (hb : ∀ p ∈ d, p.r < 256) :
    cumW (pixelHist d) 256 = d.length := by
  induction d with
  | nil => simp [cumW, pixelHist]
  | cons p rest ih =>
    have hstep : ∀ v, pixelHist (p :: rest) v = (if p.r = v then 1 else 0) + pixelHist rest v := by
      intro v
      unfold pixelHist
      rw [List.filter_cons]
      by_cases hv : p.r = v
      · simp [hv, Nat.add_comm]
      · simp [hv]
    unfold cumW
    rw [Finset.sum_congr rfl (fun v _ => hstep v), Finset.sum_add_distrib]
    have hrest := ih (fun q hq => hb q (List.mem_cons_of_mem p hq))
    unfold cumW at hrest
    rw [hrest]
    have hone : (∑ v ∈ Finset.range 256, if p.r = v then 1 else 0) = 1 := by
      rw [Finset.sum_ite_eq]
      simp [Finset.mem_range.mpr (hb p (List.mem_cons_self p rest))]
    rw [hone]
    simp [Nat.add_comm]

/-- C9: with binarization enabled, every output pixel has R = G = B equal to
0 or 255; and the threshold used is a global maximizer of the inter-class
variance over all 256 candidate thresholds of the channel histogram the
step builds. -/
theorem c9_binarization_otsu :
    ∀ (d : List Pixel), (∀ p ∈ d, p.r < 256) →
      (∀ q ∈ binarizeStage d, (q.r = 0 ∨ q.r = 255) ∧ q.g = q.r ∧ q.b = q.r) ∧
      (∀ t, t < 256 →
        interClassVar (pixelHist d) d.length t
          ≤ interClassVar (pixelHist d) d.length
              (otsuThreshold (pixelHist d) d.length)) := by
  intro d hb
  constructor
  · intro q hq
    unfold binarizeStage at hq
    simp only [List.mem_map] at hq
    obtain ⟨p, hp, rfl⟩ := hq
    refine ⟨?_, rfl, rfl⟩
    by_cases hc : otsuThreshold (pixelHist d) d.length < p.r
    · right
      simp [hc]
    · left
      simp [hc]
  · have Hsum := sum_pixelHist d hb
    have spec := otsuGo_spec (pixelHist d) d.length Hsum 256 0 ⟨0, 0, 0, 128⟩
      (by omega) (by simp [cumW_zero]) (by simp [cumS_zero]) le_rfl
      (fun j hj => absurd hj (Nat.not_lt_zero j))
      (Or.inl ⟨rfl, rfl⟩)
    rw [← List.range_eq_range'] at spec
    intro t ht
    unfold otsuThreshold
    rcases spec.2 with ⟨hz, hth⟩ | hattain
    · rw [hth]
      have h1 := spec.1 t ht
      rw [hz] at h1
      have h3 := interClassVar_nonneg (pixelHist d) d.length Hsum 128 (by omega)
      linarith
    · rw [hattain]
      exact spec.1 t ht

/-- C9 witness on a concrete two-pixel buffer (values 5 and 200). -/
theorem c9_binarization_otsu_witness :
    (∀ q ∈ binarizeStage [⟨5, 5, 5, 7⟩, ⟨200, 1, 2, 3⟩],
      (q.r = 0 ∨ q.r = 255) ∧ q.g = q.r ∧ q.b = q.r) ∧
    (∀ t, t < 256 →
      interClassVar (pixelHist [⟨5, 5, 5, 7⟩, ⟨200, 1, 2, 3⟩])
          ([⟨5, 5, 5, 7⟩, ⟨200, 1, 2, 3⟩] : List Pixel).length t
        ≤ interClassVar (pixelHist [⟨5, 5, 5, 7⟩, ⟨200, 1, 2, 3⟩])
            ([⟨5, 5, 5, 7⟩, ⟨200, 1, 2, 3⟩] : List Pixel).length
            (otsuThreshold (pixelHist [⟨5, 5, 5, 7⟩, ⟨200, 1, 2, 3⟩])
              ([⟨5, 5, 5, 7⟩, ⟨200, 1, 2, 3⟩] : List Pixel).length)) :=
  c9_binarization_otsu [⟨5, 5, 5, 7⟩, ⟨200, 1, 2, 3⟩] (by decide)

end Envelope
